import Mathlib

/-!
Verification of the HeartSmiles import pipeline.

This file gives a shallow embedding, in Lean 4, of the data import pipeline of
the heart-smiles backend: the record validators of `backend/config/openai.js`,
the extraction-client result handling of the same file, and the
upload/parse/extract/validate/persist pipeline of
`backend/controllers/importController.js`, together with the document-store
operations of `backend/models/Participant.js` and `backend/models/Program.js`.

Modelling conventions:
- JavaScript record fields that may be `undefined` are modelled as
  `Option String` (with `none` for `undefined`); JavaScript truthiness of such
  a field is `truthy` below (both `undefined` and the empty string are falsy).
- The hosted-model call and the file reads are external effects; each pipeline
  invocation receives their outcomes as explicit inputs.
- Firestore server timestamps (`createdAt` / `updatedAt`) are wall-clock data
  and are omitted from the document model; no claim mentions them.
- String length is code points here and UTF-16 units in JavaScript; the two
  agree on ASCII data, which is all the claims use.
-/

namespace HeartSmiles

/-- JavaScript truthiness of a possibly-`undefined` string field:
`undefined` and `""` are falsy, every other string is truthy. -/
def truthy : Option String → Bool
  | none => false
  | some s => !(s == "")

/-- Embedding of JavaScript `String.prototype.toLowerCase` (per-character
lowercasing; agrees with the JavaScript behaviour on the ASCII data the
claims use). -/
def jsToLower (s : String) : String :=
  String.mk (s.data.map Char.toLower)

/-- Embedding of JavaScript `String.prototype.trim` (drop leading and
trailing whitespace). -/
def jsTrim (s : String) : String :=
  String.mk (((s.data.dropWhile Char.isWhitespace).reverse.dropWhile
      Char.isWhitespace).reverse)

/-- Gregorian leap-year rule, used by the calendar-validity part of
`isValidDate`. -/
def isLeapYear (y : Nat) : Bool :=
  (y % 4 == 0 && y % 100 != 0) || y % 400 == 0

/-- Days in a month of the proleptic Gregorian calendar. -/
def daysInMonth (y m : Nat) : Nat :=
  if m == 2 then (if isLeapYear y then 29 else 28)
  else if m == 4 || m == 6 || m == 9 || m == 11 then 30
  else 31

/-- Whether a string matches the regular expression
`^\d{4}-\d{2}-\d{2}$` of `isValidDate` in `backend/config/openai.js`. -/
def dateShape (s : String) : Bool :=
  let cs := s.data
  cs.length == 10 &&
  (cs.take 4).all Char.isDigit &&
  cs.getD 4 ' ' == '-' &&
  ((cs.drop 5).take 2).all Char.isDigit &&
  cs.getD 7 ' ' == '-' &&
  (cs.drop 8).all Char.isDigit

/-- Decimal value of a digit string, as a list of characters. -/
def digitsToNat (cs : List Char) : Nat :=
  cs.foldl (fun acc c => acc * 10 + (c.toNat - 48)) 0

/-- Embedding of `isValidDate` (`backend/config/openai.js`): the string must
match `^\d{4}-\d{2}-\d{2}$` and `new Date(dateString)` must not be an invalid
date.  For strings of that exact shape, ECMAScript date-string parsing
succeeds precisely when the three components form a real calendar date
(month 1–12, day within the month's length). -/
def isValidDate (s : String) : Bool :=
  dateShape s &&
  (let cs := s.data
   let y := digitsToNat (cs.take 4)
   let m := digitsToNat ((cs.drop 5).take 2)
   let d := digitsToNat (cs.drop 8)
   decide (1 ≤ m) && decide (m ≤ 12) && decide (1 ≤ d) &&
   decide (d ≤ daysInMonth y m))

/-- Participant record as produced by the extraction client
(`processParticipantData`'s JSON schema); fields may be absent. -/
structure ParticipantData where
  name : Option String := none
  dateOfBirth : Option String := none
  address : Option String := none
  referralDate : Option String := none
  school : Option String := none
  identificationNumber : Option String := none
  programs : List String := []
  notes : List String := []
deriving Repr, DecidableEq

/-- Program record as produced by the extraction client
(`processProgramData`'s JSON schema). -/
structure ProgramData where
  name : Option String := none
  description : Option String := none
  participants : List String := []
deriving Repr, DecidableEq

/-- Result `{ isValid, errors }` returned by the validators. -/
structure ValidationResult where
  isValid : Bool
  errors : List String
deriving Repr, DecidableEq

def nameRequiredMsg : String := "Name is required and must be at least 2 characters"

def dobInvalidMsg : String := "Date of birth must be a valid date in YYYY-MM-DD format"

def referralInvalidMsg : String := "Referral date must be a valid date in YYYY-MM-DD format"

def idRequiredMsg : String := "Identification number is required and must be at least 3 characters"

def programNameMsg : String := "Program name is required and must be at least 2 characters"

def programDescMsg : String := "Program description is required and must be at least 10 characters"

/-- Embedding of `validateParticipantData` (`backend/config/openai.js`):
name required with trimmed length ≥ 2; each date checked only when truthy;
identification number required with trimmed length ≥ 3.  Errors are pushed in
source order. -/
def validateParticipantData (p : ParticipantData) : ValidationResult :=
  let errors :=
    (if !truthy p.name || decide ((jsTrim (p.name.getD "")).length < 2)
      then [nameRequiredMsg] else []) ++
    (if truthy p.dateOfBirth && !isValidDate (p.dateOfBirth.getD "")
      then [dobInvalidMsg] else []) ++
    (if truthy p.referralDate && !isValidDate (p.referralDate.getD "")
      then [referralInvalidMsg] else []) ++
    (if !truthy p.identificationNumber ||
        decide ((jsTrim (p.identificationNumber.getD "")).length < 3)
      then [idRequiredMsg] else [])
  { isValid := errors.length == 0, errors := errors }

/-- Embedding of `validateProgramData` (`backend/config/openai.js`):
name required with trimmed length ≥ 2; description required with trimmed
length ≥ 10.  There is no date rule for programs. -/
def validateProgramData (g : ProgramData) : ValidationResult :=
  let errors :=
    (if !truthy g.name || decide ((jsTrim (g.name.getD "")).length < 2)
      then [programNameMsg] else []) ++
    (if !truthy g.description || decide ((jsTrim (g.description.getD "")).length < 10)
      then [programDescMsg] else [])
  { isValid := errors.length == 0, errors := errors }

/-- A participant record that is fully valid except that both date fields are
absent; used to test the validator's treatment of missing dates. -/
def participantNoDates : ParticipantData :=
  { name := some "John Doe", school := some "Lincoln High",
    identificationNumber := some "ABC123" }

/-- C2 counterexample: a participant record with both `dateOfBirth` and
`referralDate` missing is accepted by the validator (`isValid = true`,
empty error list), contradicting the claim that a missing date field makes
the record invalid with a "required" error for that field. -/
theorem missing_dates_accepted :
    validateParticipantData participantNoDates = { isValid := true, errors := [] } := by
  decide

theorem jsTrim_length_le (s : String) : (jsTrim s).length ≤ s.length := by
  unfold jsTrim
  show (((s.data.dropWhile _).reverse.dropWhile _).reverse).length ≤ s.data.length
  rw [List.length_reverse]
  calc ((s.data.dropWhile Char.isWhitespace).reverse.dropWhile Char.isWhitespace).length
      ≤ (s.data.dropWhile Char.isWhitespace).reverse.length :=
        (List.dropWhile_sublist _).length_le
    _ = (s.data.dropWhile Char.isWhitespace).length := List.length_reverse _
    _ ≤ s.data.length := (List.dropWhile_sublist _).length_le

theorem mem_ite_singleton {e m : String} {c : Bool} :
    (e ∈ if c = true then [m] else []) ↔ (c = true ∧ e = m) := by
  split <;> simp_all

/-- Characterization of the participant validator's error list: a message is
reported precisely when it is one of the four fixed messages and its source
condition holds. -/
theorem mem_participant_errors (p : ParticipantData) (e : String) :
    e ∈ (validateParticipantData p).errors ↔
      ((!truthy p.name || decide ((jsTrim (p.name.getD "")).length < 2)) = true
        ∧ e = nameRequiredMsg) ∨
      ((truthy p.dateOfBirth && !isValidDate (p.dateOfBirth.getD "")) = true
        ∧ e = dobInvalidMsg) ∨
      ((truthy p.referralDate && !isValidDate (p.referralDate.getD "")) = true
        ∧ e = referralInvalidMsg) ∨
      ((!truthy p.identificationNumber ||
          decide ((jsTrim (p.identificationNumber.getD "")).length < 3)) = true
        ∧ e = idRequiredMsg) := by
  simp only [validateParticipantData, List.mem_append, mem_ite_singleton]
  tauto

/-- Characterization of the program validator's error list. -/
theorem mem_program_errors (g : ProgramData) (e : String) :
    e ∈ (validateProgramData g).errors ↔
      ((!truthy g.name || decide ((jsTrim (g.name.getD "")).length < 2)) = true
        ∧ e = programNameMsg) ∨
      ((!truthy g.description ||
          decide ((jsTrim (g.description.getD "")).length < 10)) = true
        ∧ e = programDescMsg) := by
  simp only [validateProgramData, List.mem_append, mem_ite_singleton]

/-- C2 (amended): the participant validator treats both date fields as
optional — when a date field is absent or empty it contributes no error (so a
record can be valid without dates), while a present date failing the
`YYYY-MM-DD` validity check contributes its specific error message; the
program validator has no date rule (its errors are only the name and
description messages). -/
theorem date_fields_optional (p : ParticipantData) (g : ProgramData) :
    (truthy p.dateOfBirth = false →
      dobInvalidMsg ∉ (validateParticipantData p).errors) ∧
    (truthy p.referralDate = false →
      referralInvalidMsg ∉ (validateParticipantData p).errors) ∧
    (truthy p.dateOfBirth = true → isValidDate (p.dateOfBirth.getD "") = false →
      dobInvalidMsg ∈ (validateParticipantData p).errors) ∧
    (truthy p.referralDate = true → isValidDate (p.referralDate.getD "") = false →
      referralInvalidMsg ∈ (validateParticipantData p).errors) ∧
    (∀ e ∈ (validateProgramData g).errors, e = programNameMsg ∨ e = programDescMsg) := by
  refine ⟨?_, ?_, ?_, ?_, ?_⟩
  · intro h hmem
    rw [mem_participant_errors] at hmem
    rcases hmem with ⟨_, he⟩ | ⟨hc, _⟩ | ⟨_, he⟩ | ⟨_, he⟩
    · exact absurd he (by decide)
    · rw [h] at hc; simp at hc
    · exact absurd he (by decide)
    · exact absurd he (by decide)
  · intro h hmem
    rw [mem_participant_errors] at hmem
    rcases hmem with ⟨_, he⟩ | ⟨_, he⟩ | ⟨hc, _⟩ | ⟨_, he⟩
    · exact absurd he (by decide)
    · exact absurd he (by decide)
    · rw [h] at hc; simp at hc
    · exact absurd he (by decide)
  · intro h1 h2
    rw [mem_participant_errors]
    exact Or.inr (Or.inl ⟨by rw [h1, h2]; rfl, rfl⟩)
  · intro h1 h2
    rw [mem_participant_errors]
    exact Or.inr (Or.inr (Or.inl ⟨by rw [h1, h2]; rfl, rfl⟩))
  · intro e he
    rw [mem_program_errors] at he
    rcases he with ⟨_, he⟩ | ⟨_, he⟩
    · exact Or.inl he
    · exact Or.inr he

/-- C2 amended-claim witness at a concrete record: `participantNoDates` has
no dates, and neither date message appears among its validation errors. -/
theorem date_fields_optional_witness :
    truthy participantNoDates.dateOfBirth = false ∧
    dobInvalidMsg ∉ (validateParticipantData participantNoDates).errors :=
  ⟨by decide, (date_fields_optional participantNoDates {}).1 (by decide)⟩

/-- C5: a participant record whose identification number is present but
shorter than 3 characters, while the name rule holds and each date field is
absent or valid, is rejected with exactly the identification-number-length
message as its only error. -/
theorem short_id_single_error (p : ParticipantData) (s : String)
    (hid : p.identificationNumber = some s) (hlen : s.length < 3)
    (hname : truthy p.name = true)
    (hnamelen : 2 ≤ (jsTrim (p.name.getD "")).length)
    (hdob : truthy p.dateOfBirth = true → isValidDate (p.dateOfBirth.getD "") = true)
    (href : truthy p.referralDate = true → isValidDate (p.referralDate.getD "") = true) :
    validateParticipantData p = { isValid := false, errors := [idRequiredMsg] } := by
  have htrim : (jsTrim s).length < 3 := Nat.lt_of_le_of_lt (jsTrim_length_le s) hlen
  simp only [validateParticipantData, hid, hname, Option.getD_some]
  rw [if_neg (by simp [Nat.not_lt.mpr hnamelen]),
      if_neg (by
        cases h : truthy p.dateOfBirth with
        | false => simp
        | true => simp [hdob h]),
      if_neg (by
        cases h : truthy p.referralDate with
        | false => simp
        | true => simp [href h]),
      if_pos (by simp [htrim])]
  rfl

/-- C5 witness: the concrete record with identification number `"AB"`
(2 characters) and otherwise valid fields yields exactly the
identification-number error. -/
theorem short_id_single_error_witness :
    validateParticipantData
      { name := some "John Doe", dateOfBirth := some "2010-04-05",
        identificationNumber := some "AB" } =
      { isValid := false, errors := [idRequiredMsg] } :=
  short_id_single_error
    { name := some "John Doe", dateOfBirth := some "2010-04-05",
      identificationNumber := some "AB" }
    "AB" rfl (by decide) (by decide) (by decide) (by decide) (by decide)

/-!
## Document store and the persistence step

`backend/models/Participant.js` and `backend/models/Program.js` wrap a
Firestore collection.  The `Participant` / `Program` constructors default
every absent field (`data.field || defaultValue`); `create` adds the
constructed document and returns it together with the store-assigned id;
`getAll` (called with no filters by the import controller) returns every
document with its id.  The store is modelled as the list of documents in
insertion order plus a counter supplying fresh ids.
-/

/-- A participant document as built by the `Participant` constructor
(`backend/models/Participant.js`): every field defaulted when absent.
The `createdAt`/`updatedAt` server timestamps are omitted. -/
structure ParticipantDoc where
  name : String
  dateOfBirth : String
  address : String
  referralDate : String
  programs : List String
  school : String
  identificationNumber : String
  headshotPictureUrl : String
  uploadedPhotos : List String
  notes : List String
  isActive : Bool
deriving Repr, DecidableEq

/-- The `Participant` constructor applied to an extracted record: string
fields default to `""`, list fields to `[]`, `isActive` to `true`. -/
def mkParticipantDoc (d : ParticipantData) : ParticipantDoc :=
  { name := d.name.getD "", dateOfBirth := d.dateOfBirth.getD "",
    address := d.address.getD "", referralDate := d.referralDate.getD "",
    programs := d.programs, school := d.school.getD "",
    identificationNumber := d.identificationNumber.getD "",
    headshotPictureUrl := "", uploadedPhotos := [], notes := d.notes,
    isActive := true }

/-- A program document as built by the `Program` constructor
(`backend/models/Program.js`). -/
structure ProgramDoc where
  name : String
  description : String
  participants : List String
  isActive : Bool
deriving Repr, DecidableEq

/-- The `Program` constructor applied to an extracted record. -/
def mkProgramDoc (g : ProgramData) : ProgramDoc :=
  { name := g.name.getD "", description := g.description.getD "",
    participants := g.participants, isActive := true }

/-- The `participants` Firestore collection: documents with their ids, in
insertion order, plus a counter supplying fresh document ids. -/
structure ParticipantStore where
  nextId : Nat := 0
  docs : List (Nat × ParticipantDoc) := []
deriving Repr, DecidableEq

/-- Embedding of `Participant.getAll()` with no filters: every document with its id. -/
def ParticipantStore.getAll (st : ParticipantStore) : List (Nat × ParticipantDoc) :=
  st.docs

/-- Embedding of `Participant.create(participantData)`: construct the document, add it to
the collection, and return it with its store-assigned id. -/
def ParticipantStore.create (st : ParticipantStore) (d : ParticipantData) :
    ParticipantStore × (Nat × ParticipantDoc) :=
  let doc := mkParticipantDoc d
  ({ nextId := st.nextId + 1, docs := st.docs ++ [(st.nextId, doc)] },
   (st.nextId, doc))

/-- The `programs` Firestore collection. -/
structure ProgramStore where
  nextId : Nat := 0
  docs : List (Nat × ProgramDoc) := []
deriving Repr, DecidableEq

/-- Embedding of `Program.getAll()` with no filters. -/
def ProgramStore.getAll (st : ProgramStore) : List (Nat × ProgramDoc) :=
  st.docs

/-- Embedding of `Program.create(programData)`. -/
def ProgramStore.create (st : ProgramStore) (g : ProgramData) :
    ProgramStore × (Nat × ProgramDoc) :=
  let doc := mkProgramDoc g
  ({ nextId := st.nextId + 1, docs := st.docs ++ [(st.nextId, doc)] },
   (st.nextId, doc))

def participantExistsMsg : String :=
  "Participant with this identification number already exists"

def programExistsMsg : String := "Program with this name already exists"

/-- The duplicate-check comparison
`p.identificationNumber === participantData.identificationNumber` of
`importController.js`: strict string equality; when the extracted record's
field is `undefined` the comparison with a stored string is always false. -/
def idMatches (stored : String) (declared : Option String) : Bool :=
  match declared with
  | none => false
  | some s => stored == s

/-- The persistence loop of `ImportController.importParticipants`
(lines 115–143): for each record, re-read the whole collection, skip with an
"already exists" error when some document has the same identification number
(case-sensitive), otherwise create the document and record it as saved.
Returns the final store, the saved documents, and the per-record save
errors, each in push order. -/
def saveParticipants : List ParticipantData → ParticipantStore →
    ParticipantStore × List (Nat × ParticipantDoc) × List (ParticipantData × String)
  | [], st => (st, [], [])
  | d :: rest, st =>
    match st.getAll.find? (fun p => idMatches p.2.identificationNumber d.identificationNumber) with
    | some _ =>
      let (st', saved, errs) := saveParticipants rest st
      (st', saved, (d, participantExistsMsg) :: errs)
    | none =>
      let (st', sp) := st.create d
      let (st'', saved, errs) := saveParticipants rest st'
      (st'', sp :: saved, errs)

/-- The exception message of `undefined.toLowerCase()`: thrown by the
duplicate-check predicate `programData.name.toLowerCase()` when the extracted
program has no name and the collection is non-empty; the message text is
host-dependent and no claim depends on it. -/
def toLowerOfUndefinedMsg : String :=
  "Cannot read properties of undefined (reading toLowerCase)"

/-- The persistence loop of `ImportController.importPrograms`
(lines 241–269): duplicate check by case-insensitive name comparison
`p.name.toLowerCase() === programData.name.toLowerCase()`.  When the
extracted record's name is `undefined`, the predicate throws on the first
stored document (caught and recorded as a save error); on an empty
collection `find` never calls the predicate, so the record is created. -/
def savePrograms : List ProgramData → ProgramStore →
    ProgramStore × List (Nat × ProgramDoc) × List (ProgramData × String)
  | [], st => (st, [], [])
  | g :: rest, st =>
    match g.name with
    | some nm =>
      match st.getAll.find? (fun p => jsToLower p.2.name == jsToLower nm) with
      | some _ =>
        let (st', saved, errs) := savePrograms rest st
        (st', saved, (g, programExistsMsg) :: errs)
      | none =>
        let (st', sp) := st.create g
        let (st'', saved, errs) := savePrograms rest st'
        (st'', sp :: saved, errs)
    | none =>
      if st.getAll.isEmpty then
        let (st', sp) := st.create g
        let (st'', saved, errs) := savePrograms rest st'
        (st'', sp :: saved, errs)
      else
        let (st', saved, errs) := savePrograms rest st
        (st', saved, (g, toLowerOfUndefinedMsg) :: errs)

/-- A valid participant record carries a truthy identification number:
otherwise the validator would have pushed the identification-number error. -/
theorem isValid_truthy_id (d : ParticipantData)
    (h : (validateParticipantData d).isValid = true) :
    truthy d.identificationNumber = true := by
  by_contra hc
  rw [Bool.not_eq_true] at hc
  simp [validateParticipantData, hc, List.length_append] at h

/-- C4: duplicate-skip is idempotent on a single valid record that is not yet
in the store — the first persistence run saves it with no errors, and a
second run on the same list saves nothing and records exactly one
"already exists" error. -/
theorem duplicate_skip_idempotent (d : ParticipantData) (st : ParticipantStore)
    (hvalid : (validateParticipantData d).isValid = true)
    (habsent : st.docs.find?
      (fun p => idMatches p.2.identificationNumber d.identificationNumber) = none) :
    (saveParticipants [d] st).2.1.length = 1 ∧
    (saveParticipants [d] st).2.2 = [] ∧
    (saveParticipants [d] (saveParticipants [d] st).1).2.1 = [] ∧
    (saveParticipants [d] (saveParticipants [d] st).1).2.2 =
      [(d, participantExistsMsg)] := by
  obtain ⟨s, hs, hne⟩ : ∃ s, d.identificationNumber = some s ∧ (s == "") = false := by
    have := isValid_truthy_id d hvalid
    cases hid : d.identificationNumber with
    | none => rw [hid] at this; simp [truthy] at this
    | some s => exact ⟨s, rfl, by rw [hid] at this; simpa [truthy] using this⟩
  have hstep1 : saveParticipants [d] st =
      ((st.create d).1, [(st.create d).2], []) := by
    simp only [saveParticipants, ParticipantStore.getAll, habsent]
  have hdoc : (mkParticipantDoc d).identificationNumber = s := by
    simp [mkParticipantDoc, hs]
  have hp : idMatches (mkParticipantDoc d).identificationNumber
      d.identificationNumber = true := by
    rw [hdoc, hs]; simp [idMatches]
  have hfind2 : ((st.create d).1).docs.find?
      (fun p => idMatches p.2.identificationNumber d.identificationNumber) =
      some (st.nextId, mkParticipantDoc d) := by
    simp [ParticipantStore.create, List.find?_append, habsent, hp]
  refine ⟨by rw [hstep1]; rfl, by rw [hstep1], ?_, ?_⟩
  · rw [hstep1]
    simp only [saveParticipants, ParticipantStore.getAll, hfind2]
  · rw [hstep1]
    simp only [saveParticipants, ParticipantStore.getAll, hfind2]

/-- C4 witness: a concrete valid record persisted twice into an initially
empty store — one save then one "already exists" error. -/
theorem duplicate_skip_idempotent_witness :
    (saveParticipants [{ name := some "Jane Roe", identificationNumber := some "XYZ9" }]
        {}).2.1.length = 1 ∧
    (saveParticipants [{ name := some "Jane Roe", identificationNumber := some "XYZ9" }]
        {}).2.2 = [] ∧
    (saveParticipants [{ name := some "Jane Roe", identificationNumber := some "XYZ9" }]
        (saveParticipants [{ name := some "Jane Roe", identificationNumber := some "XYZ9" }]
          {}).1).2.1 = [] ∧
    (saveParticipants [{ name := some "Jane Roe", identificationNumber := some "XYZ9" }]
        (saveParticipants [{ name := some "Jane Roe", identificationNumber := some "XYZ9" }]
          {}).1).2.2 =
      [({ name := some "Jane Roe", identificationNumber := some "XYZ9" },
        participantExistsMsg)] :=
  duplicate_skip_idempotent
    { name := some "Jane Roe", identificationNumber := some "XYZ9" } {}
    (by decide) (by decide)

/-- C6: behaviour of one persistence-step iteration on a record whose natural
key is present.  Participants: the duplicate scan uses case-sensitive
equality on identification numbers — on a match the record is skipped with
the "already exists" error and the store is unchanged; with no match a new
document is inserted and recorded as saved.  Programs: the same, except the
scan compares names case-insensitively (via `toLowerCase`). -/
theorem persistence_duplicate_check (d : ParticipantData) (g : ProgramData)
    (s nm : String) (stP : ParticipantStore) (stG : ProgramStore)
    (hid : d.identificationNumber = some s) (hnm : g.name = some nm) :
    ((∃ p ∈ stP.docs, p.2.identificationNumber = s) →
      saveParticipants [d] stP = (stP, [], [(d, participantExistsMsg)])) ∧
    ((∀ p ∈ stP.docs, p.2.identificationNumber ≠ s) →
      saveParticipants [d] stP =
        ((stP.create d).1, [(stP.nextId, mkParticipantDoc d)], [])) ∧
    ((∃ p ∈ stG.docs, jsToLower p.2.name = jsToLower nm) →
      savePrograms [g] stG = (stG, [], [(g, programExistsMsg)])) ∧
    ((∀ p ∈ stG.docs, jsToLower p.2.name ≠ jsToLower nm) →
      savePrograms [g] stG =
        ((stG.create g).1, [(stG.nextId, mkProgramDoc g)], [])) := by
  refine ⟨?_, ?_, ?_, ?_⟩
  · rintro ⟨p, hp, hpeq⟩
    have hsome : (stP.docs.find?
        (fun p => idMatches p.2.identificationNumber d.identificationNumber)).isSome := by
      rw [List.find?_isSome]
      exact ⟨p, hp, by simp [idMatches, hid, hpeq]⟩
    obtain ⟨y, hy⟩ := Option.isSome_iff_exists.mp hsome
    simp only [saveParticipants, ParticipantStore.getAll, hy]
  · intro hnone
    have hfind : stP.docs.find?
        (fun p => idMatches p.2.identificationNumber d.identificationNumber) = none := by
      rw [List.find?_eq_none]
      intro p hp
      simp [idMatches, hid, hnone p hp]
    simp only [saveParticipants, ParticipantStore.getAll, hfind,
      ParticipantStore.create]
  · rintro ⟨p, hp, hpeq⟩
    have hsome : (stG.docs.find? (fun p => jsToLower p.2.name == jsToLower nm)).isSome := by
      rw [List.find?_isSome]
      exact ⟨p, hp, by simp [hpeq]⟩
    obtain ⟨y, hy⟩ := Option.isSome_iff_exists.mp hsome
    simp only [savePrograms, hnm, ProgramStore.getAll, hy]
  · intro hnone
    have hfind : stG.docs.find? (fun p => jsToLower p.2.name == jsToLower nm) = none := by
      rw [List.find?_eq_none]
      intro p hp
      simp [hnone p hp]
    simp only [savePrograms, hnm, ProgramStore.getAll, hfind, ProgramStore.create]

/-- C6 witness, exercising both comparison modes at concrete stores: a
participant whose identification number differs from the stored one only in
case is inserted (case-sensitive scan finds no match), while a program whose
name differs from the stored one only in case is skipped with the
"already exists" error (case-insensitive scan). -/
theorem persistence_duplicate_check_witness :
    saveParticipants [{ identificationNumber := some "ABC" }]
        { nextId := 1, docs := [(0, mkParticipantDoc { identificationNumber := some "abc" })] } =
      ({ nextId := 2,
         docs := [(0, mkParticipantDoc { identificationNumber := some "abc" }),
                  (1, mkParticipantDoc { identificationNumber := some "ABC" })] },
       [(1, mkParticipantDoc { identificationNumber := some "ABC" })], []) ∧
    savePrograms [{ name := some "chess" }]
        { nextId := 1, docs := [(0, mkProgramDoc { name := some "Chess" })] } =
      ({ nextId := 1, docs := [(0, mkProgramDoc { name := some "Chess" })] },
       [], [({ name := some "chess" }, programExistsMsg)]) :=
  ⟨(persistence_duplicate_check { identificationNumber := some "ABC" }
      { name := some "chess" } "ABC" "chess"
      { nextId := 1, docs := [(0, mkParticipantDoc { identificationNumber := some "abc" })] }
      { nextId := 1, docs := [(0, mkProgramDoc { name := some "Chess" })] }
      rfl rfl).2.1 (by decide),
   (persistence_duplicate_check { identificationNumber := some "ABC" }
      { name := some "chess" } "ABC" "chess"
      { nextId := 1, docs := [(0, mkParticipantDoc { identificationNumber := some "abc" })] }
      { nextId := 1, docs := [(0, mkProgramDoc { name := some "Chess" })] }
      rfl rfl).2.2.1 ⟨(0, mkProgramDoc { name := some "Chess" }), by decide, by decide⟩⟩

/-!
## File upload and parsing

`importController.js` configures multer with a file filter (mime type or
extension) and a 10 MB size limit, and parses the stored file by extension:
`.csv` through the csv-parser stream, `.xlsx`/`.xls` through the xlsx
workbook reader (first sheet).  The outcomes of the underlying reads are
external inputs, collected in `FileSystem`.
-/

/-- One parsed spreadsheet row: header-keyed string mapping. -/
abbrev Row := List (String × String)

/-- Position of the last `.` in a character list, if any. -/
def lastDotPos (cs : List Char) : Option Nat :=
  (List.range cs.length).foldl
    (fun acc i => if cs.getD i ' ' == '.' then some i else acc) none

/-- Final path segment (suffix after the last `/`), as in Node's
`path.basename` on a plain file path. -/
def pathBasename (p : String) : String :=
  String.mk ((p.data.reverse.takeWhile (fun c => !(c == '/'))).reverse)

/-- Embedding of Node's `path.extname` for POSIX paths: the suffix of the
basename from its last `.`, or `""` when the basename has no dot or only a
leading dot. -/
def extname (p : String) : String :=
  let b := (pathBasename p).data
  match lastDotPos b with
  | none => ""
  | some 0 => ""
  | some k => String.mk (b.drop k)

/-- Allowed mime types of the multer file filter (`importController.js`
lines 28–34). -/
def allowedMimeTypes : List String :=
  ["text/csv", "application/csv", "text/plain",
   "application/vnd.ms-excel",
   "application/vnd.openxmlformats-officedocument.spreadsheetml.sheet"]

/-- Allowed extensions of the multer file filter. -/
def allowedExtensions : List String := [".csv", ".xlsx", ".xls"]

def filterRejectMsg : String := "Only CSV and Excel files are allowed"

def fileSizeLimitMsg : String := "File size too large. Maximum size is 10MB."

def unexpectedFileMsg : String := "Unexpected file field."

/-- multer `fileSize` limit: 10 MB. -/
def uploadFileSizeLimit : Nat := 10 * 1024 * 1024

/-- Embedding of the multer `fileFilter` (`importController.js` lines 27–44):
a file is accepted when its mime type is in the allowed list OR its
lower-cased extension is in the allowed list; otherwise the filter raises
the rejection error. -/
def fileFilterAccepts (mimetype originalname : String) : Bool :=
  allowedMimeTypes.contains mimetype ||
  allowedExtensions.contains (jsToLower (extname originalname))

/-- Errors reaching `ImportController.handleUploadError`: multer limit
errors (by code), or a plain error with a message (as raised by the file
filter). -/
inductive UploadError where
  | limitFileSize
  | limitUnexpectedFile
  | otherMulter (code : String)
  | generic (msg : String)
deriving Repr, DecidableEq

/-- Embedding of `ImportController.handleUploadError` (lines 348–363):
`some (status, message)` when the middleware answers the request itself,
`none` when it passes the error on via `next(error)`. -/
def handleUploadError : UploadError → Option (Nat × String)
  | .limitFileSize => some (400, fileSizeLimitMsg)
  | .limitUnexpectedFile => some (400, unexpectedFileMsg)
  | .otherMulter _ => none
  | .generic m => if m == filterRejectMsg then some (400, m) else none

/-- Outcomes of the external file reads underlying one pipeline invocation:
the csv-parser stream result, and the xlsx workbook read result (the
workbook's sheets, name-keyed, in `SheetNames` order). -/
structure FileSystem where
  csvResult : Except String (List Row)
  excelRead : Except String (List (String × List Row))
deriving Repr

/-- Embedding of `ImportController.parseCSV`: resolves with the streamed rows or rejects
with the stream error. -/
def parseCSV (fsys : FileSystem) : Except String (List Row) :=
  fsys.csvResult

/-- The message of the `TypeError` thrown by `XLSX.utils.sheet_to_json` on an
undefined worksheet (workbook with no sheets); host-dependent text, no claim
depends on it. -/
def emptyWorkbookMsg : String := "Cannot read properties of undefined"

/-- Embedding of `ImportController.parseExcel` (lines 330–340): read the
workbook, take the first sheet (`SheetNames[0]`), convert it to rows; any
failure inside the `try` is rethrown as
`Error parsing Excel file: <underlying message>`. -/
def parseExcel (fsys : FileSystem) : Except String (List Row) :=
  match fsys.excelRead with
  | .error m => .error ("Error parsing Excel file: " ++ m)
  | .ok [] => .error ("Error parsing Excel file: " ++ emptyWorkbookMsg)
  | .ok (s :: _) => .ok s.2

/-- Embedding of `ImportController.parseFile` (lines 304–314): dispatch on
the lower-cased extension; `.csv` to the csv parser, `.xlsx`/`.xls` to the
workbook parser, anything else throws `Unsupported file format`. -/
def parseFile (filePath : String) (fsys : FileSystem) : Except String (List Row) :=
  let ext := jsToLower (extname filePath)
  if ext == ".csv" then parseCSV fsys
  else if ext == ".xlsx" || ext == ".xls" then parseExcel fsys
  else .error "Unsupported file format"

/-- C7 counterexample: a file named `notes.txt` uploaded with mime type
`text/plain` is accepted by the filter even though `.txt` is not an allowed
extension — the filter accepts on mime type OR extension, so not every file
with a non-spreadsheet extension is rejected. -/
theorem txt_upload_accepted :
    fileFilterAccepts "text/plain" "notes.txt" = true ∧
    allowedExtensions.contains (jsToLower (extname "notes.txt")) = false := by
  constructor <;> decide

/-- C7 (amended): the upload filter accepts a file exactly when its mime type
is in the allowed list or its lower-cased extension is one of `.csv`,
`.xlsx`, `.xls`; a filter rejection and an over-10 MB upload are both
answered with HTTP 400 before the pipeline runs. -/
theorem upload_filter_rule (mimetype originalname : String) :
    (fileFilterAccepts mimetype originalname = true ↔
      (mimetype ∈ allowedMimeTypes ∨
        jsToLower (extname originalname) ∈ allowedExtensions)) ∧
    (fileFilterAccepts mimetype originalname = false →
      handleUploadError (.generic filterRejectMsg) = some (400, filterRejectMsg)) ∧
    handleUploadError .limitFileSize = some (400, fileSizeLimitMsg) := by
  refine ⟨?_, fun _ => by decide, by decide⟩
  simp [fileFilterAccepts, List.elem_iff]

/-- C7 amended-claim witness at concrete inputs: an `.xlsx` file with an
unknown mime type is accepted (extension branch), and the filter rejection
is answered with status 400. -/
theorem upload_filter_rule_witness :
    fileFilterAccepts "application/octet-stream" "report.XLSX" = true ∧
    handleUploadError (.generic filterRejectMsg) = some (400, filterRejectMsg) :=
  ⟨(upload_filter_rule "application/octet-stream" "report.XLSX").1.mpr
      (Or.inr (by decide)),
   (upload_filter_rule "application/pdf" "scan.pdf").2.1 (by decide)⟩

/-- C9: the parser dispatches on the lower-cased extension — `.csv` is read
as delimited text, `.xlsx` and `.xls` through the workbook reader using the
first sheet, any other extension yields the `Unsupported file format` error,
and a corrupt workbook surfaces as `Error parsing Excel file:` followed by
the underlying message. -/
theorem parse_dispatch (filePath : String) (fsys : FileSystem) :
    (jsToLower (extname filePath) = ".csv" →
      parseFile filePath fsys = fsys.csvResult) ∧
    ((jsToLower (extname filePath) = ".xlsx" ∨ jsToLower (extname filePath) = ".xls") →
      (∀ m, fsys.excelRead = .error m →
        parseFile filePath fsys = .error ("Error parsing Excel file: " ++ m)) ∧
      (∀ s rest, fsys.excelRead = .ok (s :: rest) →
        parseFile filePath fsys = .ok s.2)) ∧
    (jsToLower (extname filePath) ≠ ".csv" →
      jsToLower (extname filePath) ≠ ".xlsx" →
      jsToLower (extname filePath) ≠ ".xls" →
      parseFile filePath fsys = .error "Unsupported file format") := by
  refine ⟨?_, ?_, ?_⟩
  · intro h
    simp [parseFile, parseCSV, h]
  · intro h
    constructor
    · intro m hm
      rcases h with h | h <;> simp [parseFile, parseExcel, h, hm]
    · intro s rest hs
      rcases h with h | h <;> simp [parseFile, parseExcel, h, hs]
  · intro h1 h2 h3
    simp only [parseFile]
    rw [if_neg (by simpa using h1), if_neg (by simp [h2, h3])]

/-- C9 witness at concrete inputs: a `.PDF` upload hits the
unsupported-format error, and a corrupt `.xlsx` workbook read surfaces with
the prefixed message. -/
theorem parse_dispatch_witness :
    parseFile "report.PDF" { csvResult := .ok [], excelRead := .error "bad zip" } =
      .error "Unsupported file format" ∧
    parseFile "report.xlsx" { csvResult := .ok [], excelRead := .error "bad zip" } =
      .error ("Error parsing Excel file: " ++ "bad zip") :=
  ⟨(parse_dispatch "report.PDF"
      { csvResult := .ok [], excelRead := .error "bad zip" }).2.2
      (by decide) (by decide) (by decide),
   ((parse_dispatch "report.xlsx"
      { csvResult := .ok [], excelRead := .error "bad zip" }).2.1
      (Or.inl (by decide))).1 "bad zip" rfl⟩

/-!
## Extraction client

`processParticipantData` / `processProgramData` (`backend/config/openai.js`)
make one completion call, `JSON.parse` the response text, and return
`{ success: true, data: parsed.participants || [] }` (resp. `.programs`);
any exception — call failure, parse failure, or the member access throwing on
a null parse result — is caught and returned as `{ success: false, error }`.
The call outcome is an explicit input: either the call threw, or it returned
text whose `JSON.parse` result is given as `Except` (error = the parse
exception's message).
-/

/-- JSON values, as produced by `JSON.parse`. -/
inductive Json where
  | jnull
  | jbool (b : Bool)
  | jnum (n : Int)
  | jstr (s : String)
  | jarr (elems : List Json)
  | jobj (fields : List (String × Json))

/-- Message of the `TypeError` thrown by a member access on `null`;
host-dependent text, no claim depends on it. -/
def nullAccessMsg (key : String) : String :=
  "Cannot read properties of null (reading " ++ key ++ ")"

/-- JavaScript member access `value.key` on a `JSON.parse` result: throws a
`TypeError` on `null`; returns the field on an object that has it; returns
`undefined` (here `none`) on an object without it or on any other value. -/
def getProp : Json → String → Except String (Option Json)
  | .jnull, key => .error (nullAccessMsg key)
  | .jobj fields, key =>
      .ok ((fields.find? (fun kv => kv.1 == key)).map (fun kv => kv.2))
  | _, _ => .ok none

/-- JavaScript truthiness of a JSON value (for `parsed.participants || []`). -/
def jsTruthyJson : Json → Bool
  | .jnull => false
  | .jbool b => b
  | .jnum n => !(n == 0)
  | .jstr s => !(s == "")
  | .jarr _ => true
  | .jobj _ => true

/-- Outcome of the single completion call: the call threw, or it returned
text whose `JSON.parse` result is `parsed` (error = parse exception). -/
inductive ModelCall where
  | failure (msg : String)
  | response (parsed : Except String Json)

/-- The `{success, data} | {success: false, error}` result of the extraction
client. -/
inductive ExtractResult where
  | ok (data : Json)
  | err (msg : String)

/-- Embedding of `processParticipantData` (`backend/config/openai.js`
lines 10–79): `success: true` with `parsed.participants || []` when nothing
throws; `success: false` with the exception's message otherwise. -/
def processParticipantData : ModelCall → ExtractResult
  | .failure m => .err m
  | .response (.error m) => .err m
  | .response (.ok j) =>
    match getProp j "participants" with
    | .error m => .err m
    | .ok none => .ok (Json.jarr [])
    | .ok (some v) => .ok (if jsTruthyJson v then v else Json.jarr [])

/-- Embedding of `processProgramData` (`backend/config/openai.js`
lines 82–144): as `processParticipantData` with the `programs` key. -/
def processProgramData : ModelCall → ExtractResult
  | .failure m => .err m
  | .response (.error m) => .err m
  | .response (.ok j) =>
    match getProp j "programs" with
    | .error m => .err m
    | .ok none => .ok (Json.jarr [])
    | .ok (some v) => .ok (if jsTruthyJson v then v else Json.jarr [])

/-!
## Pipeline orchestrator

`ImportController.importParticipants` / `importPrograms`: check the upload,
parse the file, run the extraction call, validate, then either stop after
validation (dry run) or run the persistence loop; assemble the summary
response.  The controller-level extraction outcome is the decoded record
list (the subsequent `.map` requires the data to be an array of records);
`AIOutcome.failed` is the `{success: false}` case.
-/

/-- The multer-stored upload (`req.file`). -/
structure UploadedFile where
  path : String
deriving Repr, DecidableEq

/-- Controller-level outcome of the extraction step. -/
inductive AIOutcome (α : Type) where
  | ok (data : List α)
  | failed (err : String)
deriving Repr, DecidableEq

/-- The responses an import endpoint can send: missing upload (400),
extraction failure (500), dry-run summary (200), import summary (200), or
the catch-all error handler (500, message of the thrown error). -/
inductive ImportResponse (R D : Type) where
  | noFile
  | aiFailure (details : String)
  | dryRunDone (totalProcessed validCount invalidCount : Nat)
      (valids : List R) (invalids : List (R × List String))
  | importDone (totalProcessed savedCount saveErrorCount validationErrorCount : Nat)
      (saved : List (Nat × D)) (saveErrors : List (R × String))
      (invalids : List (R × List String))
  | fatal (msg : String)
deriving DecidableEq

/-- HTTP status of each response. -/
def ImportResponse.status {R D : Type} : ImportResponse R D → Nat
  | .noFile => 400
  | .aiFailure _ => 500
  | .dryRunDone _ _ _ _ _ => 200
  | .importDone _ _ _ _ _ _ _ => 200
  | .fatal _ => 500

/-- Request-scoped state of one participants-import invocation: the
`participants` collection and whether the multer temp file is still on
disk. -/
structure PartReqState where
  store : ParticipantStore
  tempFileExists : Bool
deriving Repr, DecidableEq

/-- Request-scoped state of one programs-import invocation. -/
structure ProgReqState where
  store : ProgramStore
  tempFileExists : Bool
deriving Repr, DecidableEq

/-- Embedding of `ImportController.importParticipants` (lines 52–175).
Control flow: 400 when no file; parse (a parse throw reaches the outer
`catch`, which deletes the temp file and answers 500); extraction call (on
`success: false` an early `return` answers 500 — without deleting the temp
file); validation partition; dry run stops after validation (deleting the
temp file); otherwise the persistence loop runs and the summary is returned
(deleting the temp file). -/
def importParticipants (file : Option UploadedFile) (dryRunField : Option String)
    (fsys : FileSystem) (ai : AIOutcome ParticipantData) (st : PartReqState) :
    PartReqState × ImportResponse ParticipantData ParticipantDoc :=
  match file with
  | none => (st, .noFile)
  | some f =>
    let isDryRun := dryRunField.getD "false" == "true"
    match parseFile f.path fsys with
    | .error m => ({ st with tempFileExists := false }, .fatal m)
    | .ok _rows =>
      match ai with
      | .failed e => (st, .aiFailure e)
      | .ok processed =>
        let results := processed.map (fun p => (p, validateParticipantData p))
        let valids := (results.filter (fun r => r.2.isValid)).map (fun r => r.1)
        let invalids := (results.filter (fun r => !r.2.isValid)).map
          (fun r => (r.1, r.2.errors))
        if isDryRun then
          ({ st with tempFileExists := false },
           .dryRunDone processed.length valids.length invalids.length valids invalids)
        else
          let res := saveParticipants valids st.store
          ({ store := res.1, tempFileExists := false },
           .importDone processed.length res.2.1.length res.2.2.length invalids.length
             res.2.1 res.2.2 invalids)

/-- Embedding of `ImportController.importPrograms` (lines 178–301);
identical control flow with program semantics. -/
def importPrograms (file : Option UploadedFile) (dryRunField : Option String)
    (fsys : FileSystem) (ai : AIOutcome ProgramData) (st : ProgReqState) :
    ProgReqState × ImportResponse ProgramData ProgramDoc :=
  match file with
  | none => (st, .noFile)
  | some f =>
    let isDryRun := dryRunField.getD "false" == "true"
    match parseFile f.path fsys with
    | .error m => ({ st with tempFileExists := false }, .fatal m)
    | .ok _rows =>
      match ai with
      | .failed e => (st, .aiFailure e)
      | .ok processed =>
        let results := processed.map (fun g => (g, validateProgramData g))
        let valids := (results.filter (fun r => r.2.isValid)).map (fun r => r.1)
        let invalids := (results.filter (fun r => !r.2.isValid)).map
          (fun r => (r.1, r.2.errors))
        if isDryRun then
          ({ st with tempFileExists := false },
           .dryRunDone processed.length valids.length invalids.length valids invalids)
        else
          let res := savePrograms valids st.store
          ({ store := res.1, tempFileExists := false },
           .importDone processed.length res.2.1.length res.2.2.length invalids.length
             res.2.1 res.2.2 invalids)

/-- Iterates `n` repetitions of the same participants-import invocation. -/
def iterateImportParticipants (file : Option UploadedFile)
    (dryRunField : Option String) (fsys : FileSystem)
    (ai : AIOutcome ParticipantData) : Nat → PartReqState → PartReqState
  | 0, st => st
  | n + 1, st =>
      iterateImportParticipants file dryRunField fsys ai n
        (importParticipants file dryRunField fsys ai st).1

/-- Iterates `n` repetitions of the same programs-import invocation. -/
def iterateImportPrograms (file : Option UploadedFile)
    (dryRunField : Option String) (fsys : FileSystem)
    (ai : AIOutcome ProgramData) : Nat → ProgReqState → ProgReqState
  | 0, st => st
  | n + 1, st =>
      iterateImportPrograms file dryRunField fsys ai n
        (importPrograms file dryRunField fsys ai st).1

theorem dryRun_step_participants (file : Option UploadedFile) (fsys : FileSystem)
    (ai : AIOutcome ParticipantData) (st : PartReqState) :
    (importParticipants file (some "true") fsys ai st).1.store = st.store := by
  unfold importParticipants
  cases file with
  | none => rfl
  | some f =>
    cases hp : parseFile f.path fsys with
    | error m => simp [hp]
    | ok rows =>
      cases ai with
      | failed e => simp [hp]
      | ok processed => simp [hp]

theorem dryRun_step_programs (file : Option UploadedFile) (fsys : FileSystem)
    (ai : AIOutcome ProgramData) (st : ProgReqState) :
    (importPrograms file (some "true") fsys ai st).1.store = st.store := by
  unfold importPrograms
  cases file with
  | none => rfl
  | some f =>
    cases hp : parseFile f.path fsys with
    | error m => simp [hp]
    | ok rows =>
      cases ai with
      | failed e => simp [hp]
      | ok processed => simp [hp]

/-- C1: a dry-run invocation (`dryRun = "true"`) never touches the document
store on any control path — repeating either import endpoint any number of
times, with any file, parse outcome and extraction outcome, leaves the
collection exactly as it was. -/
theorem dry_run_preserves_store (file : Option UploadedFile) (fsys : FileSystem)
    (aiP : AIOutcome ParticipantData) (aiG : AIOutcome ProgramData) (n : Nat)
    (stP : PartReqState) (stG : ProgReqState) :
    (iterateImportParticipants file (some "true") fsys aiP n stP).store = stP.store ∧
    (iterateImportPrograms file (some "true") fsys aiG n stG).store = stG.store := by
  constructor
  · induction n generalizing stP with
    | zero => rfl
    | succ k ih =>
      rw [iterateImportParticipants, ih, dryRun_step_participants]
  · induction n generalizing stG with
    | zero => rfl
    | succ k ih =>
      rw [iterateImportPrograms, ih, dryRun_step_programs]

/-- The concrete file-read environment of the counterexamples: a csv read
yielding no rows, a corrupt workbook. -/
def fsysOkCsv : FileSystem :=
  { csvResult := .ok [], excelRead := .error "corrupt" }

/-- C3 counterexample: when the extraction call fails, the early
`return res.status(500)` of `importParticipants` runs before any cleanup, so
the temporary uploaded file is still on disk after the response — the claim
that every exit path deletes it is false on the extraction-failure path. -/
theorem temp_file_leak_on_ai_failure :
    (importParticipants (some { path := "a.csv" }) none fsysOkCsv
        (.failed "model down") { store := {}, tempFileExists := true }).1.tempFileExists
      = true ∧
    (importParticipants (some { path := "a.csv" }) none fsysOkCsv
        (.failed "model down") { store := {}, tempFileExists := true }).2
      = .aiFailure "model down" := by
  exact ⟨rfl, rfl⟩

/-- C3 (amended): on every exit path of an invocation that received an
uploaded file except the extraction-failure early return — success, dry run,
and the exception path (parse failure) — the temporary uploaded file is
deleted before the response; on the extraction-failure path it is left as it
was. -/
theorem temp_file_cleanup (f : UploadedFile) (dr : Option String)
    (fsys : FileSystem) (ai : AIOutcome ParticipantData)
    (ag : AIOutcome ProgramData) (stP : PartReqState) (stG : ProgReqState) :
    ((∀ e, (importParticipants (some f) dr fsys ai stP).2 ≠ .aiFailure e) →
      (importParticipants (some f) dr fsys ai stP).1.tempFileExists = false) ∧
    (∀ e, (importParticipants (some f) dr fsys ai stP).2 = .aiFailure e →
      (importParticipants (some f) dr fsys ai stP).1.tempFileExists
        = stP.tempFileExists) ∧
    ((∀ e, (importPrograms (some f) dr fsys ag stG).2 ≠ .aiFailure e) →
      (importPrograms (some f) dr fsys ag stG).1.tempFileExists = false) ∧
    (∀ e, (importPrograms (some f) dr fsys ag stG).2 = .aiFailure e →
      (importPrograms (some f) dr fsys ag stG).1.tempFileExists
        = stG.tempFileExists) := by
  refine ⟨?_, ?_, ?_, ?_⟩
  · intro hne
    cases hp : parseFile f.path fsys with
    | error m => simp [importParticipants, hp]
    | ok rows =>
      cases ai with
      | failed e =>
        exact absurd (by simp [importParticipants, hp]) (hne e)
      | ok processed =>
        by_cases hd : (dr.getD "false" == "true") = true <;>
          simp [importParticipants, hp, hd]
  · intro e he
    cases hp : parseFile f.path fsys with
    | error m => simp [importParticipants, hp] at he
    | ok rows =>
      cases ai with
      | failed e₂ => simp [importParticipants, hp]
      | ok processed =>
        by_cases hd : (dr.getD "false" == "true") = true
        · simp [importParticipants, hp, hd] at he
        · simp [importParticipants, hp, hd] at he
  · intro hne
    cases hp : parseFile f.path fsys with
    | error m => simp [importPrograms, hp]
    | ok rows =>
      cases ag with
      | failed e =>
        exact absurd (by simp [importPrograms, hp]) (hne e)
      | ok processed =>
        by_cases hd : (dr.getD "false" == "true") = true <;>
          simp [importPrograms, hp, hd]
  · intro e he
    cases hp : parseFile f.path fsys with
    | error m => simp [importPrograms, hp] at he
    | ok rows =>
      cases ag with
      | failed e₂ => simp [importPrograms, hp]
      | ok processed =>
        by_cases hd : (dr.getD "false" == "true") = true
        · simp [importPrograms, hp, hd] at he
        · simp [importPrograms, hp, hd] at he

/-- C3 amended-claim witness: a concrete successful dry run deletes the temp
file. -/
theorem temp_file_cleanup_witness :
    (importParticipants (some { path := "a.csv" }) (some "true") fsysOkCsv
        (.ok []) { store := {}, tempFileExists := true }).1.tempFileExists = false :=
  (temp_file_cleanup { path := "a.csv" } (some "true") fsysOkCsv (.ok []) (.ok [])
      { store := {}, tempFileExists := true }
      { store := {}, tempFileExists := true }).1
    (fun _ h => ImportResponse.noConfusion h)

/-- C8 counterexample: a call whose response text is `"null"` — so
`JSON.parse` succeeds, yielding JSON null — still produces
`{success: false}`: the member access `parsedResponse.participants` throws a
`TypeError` that the surrounding `catch` turns into a failure result.  This
refutes the claim that `{success: true, data}` is returned exactly when the
call succeeds and the response text parses as JSON. -/
theorem null_parse_not_success :
    processParticipantData (.response (.ok Json.jnull)) =
      .err (nullAccessMsg "participants") := rfl

/-- C8 (amended): the extraction client returns `{success: true, data}`
exactly when the model call succeeds, its response text parses as JSON, and
the parsed value is not JSON null (a null parse result makes the member
access throw, yielding `{success: false}` like any call or parse failure);
on extraction failure the controller aborts the run with a single top-level
HTTP 500 response carrying the error, leaving the store untouched — there is
no retry. -/
theorem extraction_result_contract (call : ModelCall) (f : UploadedFile)
    (dr : Option String) (fsys : FileSystem) (e : String) (st : PartReqState)
    (rows : List Row) (hparse : parseFile f.path fsys = .ok rows) :
    ((∃ d, processParticipantData call = .ok d) ↔
      ∃ j, call = .response (.ok j) ∧ j ≠ Json.jnull) ∧
    (importParticipants (some f) dr fsys (.failed e) st).2 = .aiFailure e ∧
    ((importParticipants (some f) dr fsys (.failed e) st).2).status = 500 ∧
    (importParticipants (some f) dr fsys (.failed e) st).1.store = st.store := by
  refine ⟨⟨?_, ?_⟩, ?_, ?_, ?_⟩
  · rintro ⟨d, hd⟩
    cases call with
    | failure m => exact absurd hd (by simp [processParticipantData])
    | response parsed =>
      cases parsed with
      | error m => exact absurd hd (by simp [processParticipantData])
      | ok j =>
        cases j with
        | jnull => exact absurd hd (by simp [processParticipantData, getProp])
        | jbool b => exact ⟨.jbool b, rfl, by intro h; cases h⟩
        | jnum n => exact ⟨.jnum n, rfl, by intro h; cases h⟩
        | jstr s => exact ⟨.jstr s, rfl, by intro h; cases h⟩
        | jarr xs => exact ⟨.jarr xs, rfl, by intro h; cases h⟩
        | jobj fields => exact ⟨.jobj fields, rfl, by intro h; cases h⟩
  · rintro ⟨j, hj, hne⟩
    subst hj
    cases j with
    | jnull => exact absurd rfl hne
    | jbool b => exact ⟨_, rfl⟩
    | jnum n => exact ⟨_, rfl⟩
    | jstr s => exact ⟨_, rfl⟩
    | jarr xs => exact ⟨_, rfl⟩
    | jobj fields =>
      simp only [processParticipantData, getProp]
      cases h : (fields.find? (fun kv => kv.1 == "participants")) with
      | none => exact ⟨_, rfl⟩
      | some kv => exact ⟨_, rfl⟩
  · simp [importParticipants, hparse]
  · simp [importParticipants, hparse, ImportResponse.status]
  · simp [importParticipants, hparse]

/-- C8 amended-claim witness at concrete inputs: a response parsing to the
object `{"participants": []}` is a success, and a failed call aborts a
concrete invocation with status 500 and an untouched store. -/
theorem extraction_result_contract_witness :
    (∃ d, processParticipantData
      (.response (.ok (Json.jobj [("participants", Json.jarr [])]))) = .ok d) ∧
    ((importParticipants (some { path := "a.csv" }) none fsysOkCsv
        (.failed "rate limited") { store := {}, tempFileExists := true }).2).status
      = 500 :=
  ⟨(extraction_result_contract
      (.response (.ok (Json.jobj [("participants", Json.jarr [])])))
      { path := "a.csv" } none fsysOkCsv "rate limited"
      { store := {}, tempFileExists := true } [] rfl).1.mpr
      ⟨Json.jobj [("participants", Json.jarr [])], rfl, fun h => Json.noConfusion h⟩,
   (extraction_result_contract
      (.response (.ok (Json.jobj [("participants", Json.jarr [])])))
      { path := "a.csv" } none fsysOkCsv "rate limited"
      { store := {}, tempFileExists := true } [] rfl).2.2.1⟩

/-- C10: when the response text parses to a JSON object that lacks the
expected top-level key (`participants` / `programs`), the extraction client
returns `success: true` with an empty data array (`parsed.key || []`), and
the pipeline then completes normally with a 200 summary reporting
`totalProcessed = 0` — not an extraction error. -/
theorem missing_key_empty_import (fields gfields : List (String × Json))
    (f : UploadedFile) (fsys : FileSystem) (st : PartReqState) (rows : List Row)
    (hP : fields.find? (fun kv => kv.1 == "participants") = none)
    (hG : gfields.find? (fun kv => kv.1 == "programs") = none)
    (hparse : parseFile f.path fsys = .ok rows) :
    processParticipantData (.response (.ok (.jobj fields))) = .ok (Json.jarr []) ∧
    processProgramData (.response (.ok (.jobj gfields))) = .ok (Json.jarr []) ∧
    (importParticipants (some f) none fsys (.ok []) st).2 =
      .importDone 0 0 0 0 [] [] [] ∧
    ((importParticipants (some f) none fsys (.ok []) st).2).status = 200 ∧
    (importParticipants (some f) none fsys (.ok []) st).1.store = st.store := by
  refine ⟨?_, ?_, ?_, ?_, ?_⟩
  · simp [processParticipantData, getProp, hP]
  · simp [processProgramData, getProp, hG]
  · simp [importParticipants, hparse, saveParticipants]
  · simp [importParticipants, hparse, saveParticipants, ImportResponse.status]
  · simp [importParticipants, hparse, saveParticipants]

/-- C10 witness at concrete inputs: an object with only an unrelated key
yields an empty extraction, and the concrete pipeline run reports
`totalProcessed = 0` with status 200. -/
theorem missing_key_empty_import_witness :
    processParticipantData
      (.response (.ok (Json.jobj [("items", Json.jarr [])]))) = .ok (Json.jarr []) ∧
    (importParticipants (some { path := "a.csv" }) none fsysOkCsv (.ok [])
        { store := {}, tempFileExists := true }).2 = .importDone 0 0 0 0 [] [] [] :=
  ⟨(missing_key_empty_import [("items", Json.jarr [])] []
      { path := "a.csv" } fsysOkCsv { store := {}, tempFileExists := true } []
      rfl rfl rfl).1,
   (missing_key_empty_import [("items", Json.jarr [])] []
      { path := "a.csv" } fsysOkCsv { store := {}, tempFileExists := true } []
      rfl rfl rfl).2.2.1⟩

end HeartSmiles
